import Mathlib

/-!
Shallow embedding of the Stocksensei repository: the frontend components
(`StockSelector.tsx`, `Dashboard.tsx`, `AlertPanel.tsx`) translated from the
source, and the Signal Fusion & Alert Engine core (Sentiment Scorer,
Indicator Calculator, Alert Evaluator) modelled from the spec, since its
implementation is not part of the repository sources.  Numeric values are
modelled by `ℚ`.
-/

namespace StockSensei

/-! ## Shared data model -/

/-- Alert severities (spec §3: severity ∈ \x7blow, medium, high\x7d). -/
inductive Severity
  | high
  | medium
  | low
deriving DecidableEq, Repr

/-- Alert kinds (spec §3: kind ∈ \x7bsentiment, trend, volume, correlation\x7d). -/
inductive AlertKind
  | sentiment
  | trend
  | volume
  | correlation
deriving DecidableEq, Repr

/-! ## StockSelector.tsx -/

/-- The `Stock` interface from `StockSelector.tsx`. -/
structure Stock where
  symbol : String
  name : String
  sector : String
deriving DecidableEq, Repr

/-- The `PopularStocks` interface from `StockSelector.tsx`. -/
structure PopularStocks where
  indian_stocks : List Stock
  us_stocks : List Stock
deriving DecidableEq, Repr

/-- The `handleAddStock` from `StockSelector.tsx`: `onStockSelectionChange` is
called with the appended list only when the symbol is not already included;
otherwise the selection is left unchanged. -/
def handleAddStock (selectedStocks : List String) (symbol : String) : List String :=
  if selectedStocks.contains symbol then selectedStocks
  else selectedStocks ++ [symbol]

/-- The `handleRemoveStock` from `StockSelector.tsx`:
`selectedStocks.filter(s => s !== symbol)`. -/
def handleRemoveStock (selectedStocks : List String) (symbol : String) : List String :=
  selectedStocks.filter (fun s => s ≠ symbol)

/-- JavaScript `hay.includes(needle)` on strings, as a substring test on
character lists. -/
def strIncludes (hay needle : List Char) : Bool :=
  match hay with
  | [] => needle.isEmpty
  | _ :: t => needle.isPrefixOf hay || strIncludes t needle

/-- JavaScript `s.toLowerCase()`, as the character list of the string with
every character lowered. -/
def lowerList (s : String) : List Char :=
  s.toList.map Char.toLower

/-- The match predicate inside `filteredStocks` in `StockSelector.tsx`:
name, symbol or sector contains the search term, case-insensitively. -/
def stockMatches (searchTerm : String) (stock : Stock) : Bool :=
  strIncludes (lowerList stock.name) (lowerList searchTerm) ||
  strIncludes (lowerList stock.symbol) (lowerList searchTerm) ||
  strIncludes (lowerList stock.sector) (lowerList searchTerm)

/-- The `filteredStocks` from `StockSelector.tsx`: empty when the popular stocks
have not loaded, otherwise the concatenated lists filtered by the search
term. -/
def filteredStocks (popularStocks : Option PopularStocks) (searchTerm : String) :
    List Stock :=
  match popularStocks with
  | none => []
  | some p => (p.indian_stocks ++ p.us_stocks).filter (stockMatches searchTerm)

/-- The search dropdown rendering in `StockSelector.tsx`:
`filteredStocks.slice(0, 8)`. -/
def dropdownEntries (popularStocks : Option PopularStocks) (searchTerm : String) :
    List Stock :=
  (filteredStocks popularStocks searchTerm).take 8

/-! ## Dashboard.tsx -/

/-- One element of `historical_data` in the `StockData` interface. -/
structure HistPoint where
  date : String
  close : ℚ
  volume : Nat
deriving DecidableEq, Repr

/-- The `StockData` interface from `Dashboard.tsx`. -/
structure StockData where
  symbol : String
  name : String
  current_price : ℚ
  price_change : ℚ
  price_change_pct : ℚ
  volume : Nat
  market_cap : String
  historical_data : Option (List HistPoint)
deriving DecidableEq, Repr

/-- One element of `recent_headlines` in the `SentimentData` interface. -/
structure Headline where
  title : String
  sentiment : ℚ
  source : String
  date : String
deriving DecidableEq, Repr

/-- The `SentimentData` interface from `Dashboard.tsx`. -/
structure SentimentData where
  symbol : String
  overall_sentiment : ℚ
  confidence : ℚ
  total_articles : Nat
  sentiment_trend : String
  recent_headlines : List Headline
deriving DecidableEq, Repr

/-- The dashboard tabs of `Dashboard.tsx`. -/
inductive DashTab
  | overview
  | sentiment
  | charts
deriving DecidableEq, Repr

/-- The `useState` fields of the `Dashboard` component. -/
structure DashboardState where
  stockData : List (String × StockData)
  sentimentData : List (String × SentimentData)
  activeTab : DashTab
  loading : Bool

/-- Record lookup (`stockData[symbol]`) for the state maps. -/
def recLookup {α : Type} (m : List (String × α)) (k : String) : Option α :=
  (m.find? (fun e => e.1 == k)).map (fun e => e.2)

/-- Group the (reversed) digits beyond the last three in pairs separated by
commas, the Indian digit grouping used by `toLocaleString('en-IN')`. -/
def group2 : List Char → List Char
  | [] => []
  | [a] => [a]
  | [a, b] => [a, b]
  | a :: b :: rest => a :: b :: ',' :: group2 rest

/-- Render a natural number with Indian (en-IN) digit grouping:
last three digits, then groups of two. -/
def indianGroup (n : Nat) : String :=
  let r := (Nat.toDigits 10 n).reverse
  let head := r.take 3
  let rest := r.drop 3
  String.mk ((head ++ (if rest.isEmpty then [] else ',' :: group2 rest)).reverse)

/-- Round a rational to cents the way `toLocaleString` with
`maximumFractionDigits: 2` does (half away from zero). -/
def toCents (q : ℚ) : Int :=
  if q < 0 then -(Rat.floor (-q * 100 + 1/2)) else Rat.floor (q * 100 + 1/2)

/-- The `amount.toLocaleString('en-IN', \x7b maximumFractionDigits: 2 \x7d)`:
round to two decimals, Indian grouping, trailing fraction zeros dropped. -/
def inrNumberString (q : ℚ) : String :=
  let c := toCents q
  let n := c.natAbs
  let sign := if c < 0 then "-" else ""
  let ip := indianGroup (n / 100)
  let f := n % 100
  let fp :=
    if f == 0 then ""
    else if f % 10 == 0 then "." ++ toString (f / 10)
    else (if f < 10 then ".0" else ".") ++ toString f
  sign ++ ip ++ fp

/-- The `formatCurrency` from `Dashboard.tsx`: NSE symbols are shown as-is in
rupees, other symbols are converted at the fixed rate 83. -/
def formatCurrency (amount : ℚ) (symbol : String) : String :=
  if symbol.endsWith ".NS" then "₹" ++ inrNumberString amount
  else "₹" ++ inrNumberString (amount * 83)

/-- A call of `formatCurrency` during a render with component state `st`:
the function body mentions no component state, so the translation returns
the string together with the untouched state. -/
def formatCurrencyCall (st : DashboardState) (amount : ℚ) (symbol : String) :
    String × DashboardState :=
  (formatCurrency amount symbol, st)

/-- The `getSentimentLabel` from `Dashboard.tsx`. -/
def getSentimentLabel (sentiment : ℚ) : String :=
  if sentiment > 7/10 then "Very Positive"
  else if sentiment > 6/10 then "Positive"
  else if sentiment > 4/10 then "Neutral"
  else if sentiment > 3/10 then "Negative"
  else "Very Negative"

/-- One card of the overview tab of `Dashboard.tsx`: either the per-symbol
placeholder (`Loading \x7bsymbol\x7d...`) shown when `stockData[symbol]` is
missing, or the normal stock card. -/
inductive OverviewCard
  | placeholder (symbol : String)
  | stockCard (data : StockData) (sentiment : Option SentimentData)
deriving DecidableEq, Repr

/-- The overview tab rendering of `Dashboard.tsx` (`selectedStocks.map`):
each selected symbol independently becomes either its placeholder card or
its normal card. -/
def renderOverview (selectedStocks : List String)
    (stockData : List (String × StockData))
    (sentimentData : List (String × SentimentData)) : List OverviewCard :=
  selectedStocks.map (fun sym =>
    match recLookup stockData sym with
    | none => OverviewCard.placeholder sym
    | some d => OverviewCard.stockCard d (recLookup sentimentData sym))

/-! ## Sentiment Scorer (spec §4.1) -/

/-- The `Article` record from spec §3. -/
structure Article where
  title : String
  source : String
  publishedAt : Nat
  rawText : String
deriving DecidableEq, Repr

/-- The `SentimentScore` record from spec §3. -/
structure SentimentScore where
  value : ℚ
  confidence : ℚ
  articleCount : Nat
deriving DecidableEq, Repr

/-- Modelled from the spec, §4.1: per-article fused polarity — the mean of
the two model outputs (each in [-1, 1]) rescaled linearly to [0, 1]. -/
def fusedPolarity (m₁ m₂ : Article → ℚ) (a : Article) : ℚ :=
  ((m₁ a + m₂ a) / 2 + 1) / 2

/-- Modelled from the spec, §4.1: the Sentiment Scorer's `score` contract —
its implementation is not among the repository sources.  Zero articles give
value 1/2 and confidence 0; otherwise the value is the mean fused polarity
and the confidence the saturating `min 1 (articleCount / 20)` suggested by
the spec.  `m₁` and `m₂` are the two sentiment models. -/
def score (m₁ m₂ : Article → ℚ) (articles : List Article) : SentimentScore :=
  if articles.isEmpty then
    { value := 1/2, confidence := 0, articleCount := 0 }
  else
    { value := ((articles.map (fusedPolarity m₁ m₂)).sum) / articles.length,
      confidence := min 1 ((articles.length : ℚ) / 20),
      articleCount := articles.length }

/-! ## Indicator Calculator (spec §4.2) -/

/-- The `PricePoint` record from spec §3. -/
structure PricePoint where
  timestamp : Nat
  close : ℚ
  volume : Nat
deriving DecidableEq, Repr

/-- Successive differences of a close series (period-over-period changes). -/
def changes : List ℚ → List ℚ
  | a :: b :: rest => (b - a) :: changes (b :: rest)
  | _ => []

/-- Modelled from the spec, §4.2: the trailing n-period simple moving
average, `none` (the "insufficient data" sentinel) when the series is
shorter than n. -/
def movingAvg (n : Nat) (closes : List ℚ) : Option ℚ :=
  if closes.length < n then none
  else some ((closes.drop (closes.length - n)).sum / n)

/-- Average gain over a 14-period change window (losses count as 0). -/
def avgGain (cs : List ℚ) : ℚ :=
  (cs.map (fun c => max c 0)).sum / 14

/-- Average loss over a 14-period change window (gains count as 0). -/
def avgLoss (cs : List ℚ) : ℚ :=
  (cs.map (fun c => max (-c) 0)).sum / 14

/-- Modelled from the spec, §4.2: RSI = 100 − 100/(1+RS) with
RS = average gain / average loss; 100 when the average loss is 0 and the
average gain positive, 50 when both are 0. -/
def rsiValue (cs : List ℚ) : ℚ :=
  if avgLoss cs = 0 then (if avgGain cs > 0 then 100 else 50)
  else 100 - 100 / (1 + avgGain cs / avgLoss cs)

/-- Modelled from the spec, §4.2: 14-period RSI over the trailing window,
`none` (the "insufficient data" sentinel) when fewer than 15 closes are
available. -/
def rsi14 (closes : List ℚ) : Option ℚ :=
  if closes.length < 15 then none
  else some (rsiValue (changes (closes.drop (closes.length - 15))))

/-- Percentage returns of successive closes (0 for a zero base, which a
price series does not contain). -/
def pctReturns : List ℚ → List ℚ
  | a :: b :: rest => (if a = 0 then 0 else (b - a) / a) :: pctReturns (b :: rest)
  | _ => []

/-- Modelled from the spec, §4.2: dispersion of the trailing 20 daily
percentage returns.  The spec asks for their standard deviation; `ℚ` has no
square root, so the model carries its square (the variance), which is
order-equivalent for threshold checks. -/
def volatility20 (closes : List ℚ) : Option ℚ :=
  if closes.length < 21 then none
  else
    let rs := pctReturns (closes.drop (closes.length - 21))
    let m := rs.sum / rs.length
    some ((rs.map (fun r => (r - m) * (r - m))).sum / rs.length)

/-- The `IndicatorSet` record from spec §3, with `none` as the "insufficient
data" sentinel. -/
structure IndicatorSet where
  movingAverageShort : Option ℚ
  movingAverageLong : Option ℚ
  rsi : Option ℚ
  volatility : Option ℚ
deriving DecidableEq, Repr

/-- Modelled from the spec, §4.2: `compute(series) -> IndicatorSet` — the
Indicator Calculator implementation is not among the repository sources. -/
def compute (series : List PricePoint) : IndicatorSet :=
  let closes := series.map (fun p => p.close)
  { movingAverageShort := movingAvg 5 closes,
    movingAverageLong := movingAvg 20 closes,
    rsi := rsi14 closes,
    volatility := volatility20 closes }

/-! ## Alert Evaluator (spec §4.4) -/

/-- Modelled from the spec: the `Alert` record of §3; the Alert Evaluator
implementation is not among the repository sources.  `triggeredAt` is an
abstract timestamp. -/
structure Alert where
  id : Nat
  symbol : String
  kind : AlertKind
  severity : Severity
  message : String
  thresholdValue : Option ℚ
  currentValue : Option ℚ
  isActive : Bool
  triggeredAt : Nat
deriving DecidableEq, Repr

/-- Modelled from the spec: a candidate alert produced by a rule in step 1
of §4.4 (kind, severity, message, thresholdValue, currentValue). -/
structure Candidate where
  kind : AlertKind
  severity : Severity
  message : String
  thresholdValue : Option ℚ
  currentValue : Option ℚ
deriving DecidableEq, Repr

/-- Modelled from the spec: the Alert Evaluator's in-memory state — the
alert records and the next fresh id. -/
structure EvalState where
  alerts : List Alert
  nextId : Nat
deriving DecidableEq, Repr

/-- The predicate "is the active alert for (symbol, kind)". -/
def activePred (sym : String) (k : AlertKind) (a : Alert) : Bool :=
  a.isActive && a.symbol == sym && a.kind == k

/-- Whether an active alert for (symbol, kind) exists in the state. -/
def hasActive (st : EvalState) (sym : String) (k : AlertKind) : Bool :=
  st.alerts.any (activePred sym k)

/-- The in-place update of §4.4 step 2 applied to one record: refresh
severity, currentValue and triggeredAt of the active (symbol, kind) alert,
keep every other record untouched. -/
def updateAlert (now : Nat) (sym : String) (c : Candidate) (a : Alert) : Alert :=
  if activePred sym c.kind a then
    { a with severity := c.severity, currentValue := c.currentValue,
             triggeredAt := now }
  else a

/-- The fresh alert created by §4.4 step 2 when no active (symbol, kind)
alert exists. -/
def newAlert (now : Nat) (sym : String) (st : EvalState) (c : Candidate) : Alert :=
  { id := st.nextId, symbol := sym, kind := c.kind, severity := c.severity,
    message := c.message, thresholdValue := c.thresholdValue,
    currentValue := c.currentValue, isActive := true, triggeredAt := now }

/-- Modelled from the spec, §4.4 step 2: for one candidate, update the
existing active (symbol, kind) alert in place (no new id) when present,
otherwise create a fresh alert with `isActive = true`, `triggeredAt = now`. -/
def applyCandidate (now : Nat) (sym : String) (st : EvalState) (c : Candidate) :
    EvalState :=
  if hasActive st sym c.kind then
    { st with alerts := st.alerts.map (updateAlert now sym c) }
  else
    { alerts := st.alerts ++ [newAlert now sym st c], nextId := st.nextId + 1 }

/-- The retirement of §4.4 step 3 applied to one record: deactivate an
active alert of this symbol whose kind fired no candidate this cycle. -/
def retireAlert (sym : String) (cands : List Candidate) (a : Alert) : Alert :=
  if a.symbol == sym && a.isActive && !(cands.any (fun c => c.kind == a.kind)) then
    { a with isActive := false }
  else a

/-- Modelled from the spec, §4.4 step 3: retire (set isActive to false) every
active alert of this symbol whose kind fired no candidate this cycle; the
record is retained. -/
def retireMissing (sym : String) (cands : List Candidate) (st : EvalState) :
    EvalState :=
  { st with alerts := st.alerts.map (retireAlert sym cands) }

/-- Modelled from the spec, §4.4 steps 2–3: one evaluation cycle for one
symbol, given the candidates produced by the rules in step 1. -/
def evalCycle (now : Nat) (sym : String) (cands : List Candidate) (st : EvalState) :
    EvalState :=
  retireMissing sym cands (cands.foldl (applyCandidate now sym) st)

/-- The spec §3 invariant: at most one active alert per (symbol, kind). -/
def AtMostOneActive (st : EvalState) : Prop :=
  ∀ sym k, st.alerts.countP (activePred sym k) ≤ 1

/-- The predicate "is a record (active or retired) for (symbol, kind)". -/
def symKindPred (sym : String) (k : AlertKind) (a : Alert) : Bool :=
  a.symbol == sym && a.kind == k

/-- Number of alert records (active or retired) for a (symbol, kind) pair. -/
def recordCount (st : EvalState) (sym : String) (k : AlertKind) : Nat :=
  st.alerts.countP (symKindPred sym k)

/-- Spec §4.4 step 4 ordering rank: high before medium before low. -/
def severityRank : Severity → Nat
  | Severity.high => 0
  | Severity.medium => 1
  | Severity.low => 2

/-- Spec §4.4 step 4 emission order: by severity (high, medium, low), then
by `triggeredAt` descending. -/
def emitOrder (a b : Alert) : Prop :=
  severityRank a.severity < severityRank b.severity ∨
    (severityRank a.severity = severityRank b.severity ∧ b.triggeredAt ≤ a.triggeredAt)

instance : DecidableRel emitOrder := fun a b => by
  unfold emitOrder; infer_instance

instance : IsTotal Alert emitOrder where
  total a b := by
    rcases Nat.lt_trichotomy (severityRank a.severity) (severityRank b.severity) with h | h | h
    · exact Or.inl (Or.inl h)
    · rcases Nat.le_total b.triggeredAt a.triggeredAt with h' | h'
      · exact Or.inl (Or.inr ⟨h, h'⟩)
      · exact Or.inr (Or.inr ⟨h.symm, h'⟩)
    · exact Or.inr (Or.inl h)

instance : IsTrans Alert emitOrder where
  trans a b c hab hbc := by
    rcases hab with h₁ | ⟨h₁, h₁'⟩ <;> rcases hbc with h₂ | ⟨h₂, h₂'⟩
    · exact Or.inl (h₁.trans h₂)
    · exact Or.inl (h₂ ▸ h₁)
    · exact Or.inl (h₁ ▸ h₂)
    · exact Or.inr ⟨h₁.trans h₂, h₂'.trans h₁'⟩

/-- Modelled from the spec, §4.4 step 4: the emitted output — all alerts
with `isActive = true`, ordered by severity then `triggeredAt` descending. -/
def emitActive (st : EvalState) : List Alert :=
  List.insertionSort emitOrder (st.alerts.filter (fun a => a.isActive))

/-! ## AlertPanel.tsx -/

/-- The `Alert` interface from `AlertPanel.tsx` (fields as the backend
serializes them; severity and kind are strings there). -/
structure PanelAlert where
  id : Nat
  symbol : String
  alert_type : String
  severity : String
  message : String
  threshold_value : Option ℚ
  current_value : Option ℚ
  is_active : Bool
  triggered_at : String
deriving DecidableEq, Repr

/-- Serialization of an engine alert into the shape `AlertPanel.tsx`
consumes. -/
def severityString : Severity → String
  | Severity.high => "high"
  | Severity.medium => "medium"
  | Severity.low => "low"

/-- Serialization of the alert kind. -/
def kindString : AlertKind → String
  | AlertKind.sentiment => "sentiment"
  | AlertKind.trend => "trend"
  | AlertKind.volume => "volume"
  | AlertKind.correlation => "correlation"

/-- Serialization of an engine `Alert` into a `PanelAlert`. -/
def toPanelAlert (a : Alert) : PanelAlert :=
  { id := a.id, symbol := a.symbol, alert_type := kindString a.kind,
    severity := severityString a.severity, message := a.message,
    threshold_value := a.thresholdValue, current_value := a.currentValue,
    is_active := a.isActive, triggered_at := toString a.triggeredAt }

/-- The `filter` state of `AlertPanel.tsx`: `'all' | 'high' | 'medium' | 'low'`. -/
inductive AlertFilter
  | all
  | high
  | medium
  | low
deriving DecidableEq, Repr

/-- The string value of a filter tab, as compared against `alert.severity`. -/
def filterString : AlertFilter → String
  | AlertFilter.all => "all"
  | AlertFilter.high => "high"
  | AlertFilter.medium => "medium"
  | AlertFilter.low => "low"

/-- The `filteredAlerts` from `AlertPanel.tsx`:
`filter === 'all' ? alerts : alerts.filter(alert => alert.severity === filter)`. -/
def filteredAlerts (f : AlertFilter) (alerts : List PanelAlert) : List PanelAlert :=
  if f = AlertFilter.all then alerts
  else alerts.filter (fun a => a.severity == filterString f)

/-- The `alertCounts` from `AlertPanel.tsx`. -/
structure AlertCounts where
  high : Nat
  medium : Nat
  low : Nat
  total : Nat
deriving DecidableEq, Repr

/-- The `alertCounts` computation from `AlertPanel.tsx`. -/
def alertCounts (alerts : List PanelAlert) : AlertCounts :=
  { high := (alerts.filter (fun a => a.severity == "high")).length,
    medium := (alerts.filter (fun a => a.severity == "medium")).length,
    low := (alerts.filter (fun a => a.severity == "low")).length,
    total := alerts.length }

/-! ## Theorems -/

/-- C3: the Sentiment Scorer's `score` on zero articles returns value 0.5
and confidence 0 (and, being a total function, the call cannot raise). -/
theorem score_empty_neutral (m₁ m₂ : Article → ℚ) :
    (score m₁ m₂ []).value = 1/2 ∧ (score m₁ m₂ []).confidence = 0 ∧
      (score m₁ m₂ []).articleCount = 0 := by
  simp [score]

/-- C7: the dashboard's sentiment label mapping respects the spec's polarity
anchors — 0 is Very Negative, 0.5 is Neutral, 1 is Very Positive. -/
theorem getSentimentLabel_anchors :
    getSentimentLabel 0 = "Very Negative" ∧
    getSentimentLabel (1/2) = "Neutral" ∧
    getSentimentLabel 1 = "Very Positive" := by
  refine ⟨?_, ?_, ?_⟩ <;> · unfold getSentimentLabel; norm_num

/-- C6: `formatCurrency` is pure and stateless — its result depends only on
the (amount, symbol) arguments, and a call leaves the component state
untouched. -/
theorem formatCurrency_pure (st₁ st₂ : DashboardState) (a₁ a₂ : ℚ)
    (s₁ s₂ : String) (ha : a₁ = a₂) (hs : s₁ = s₂) :
    (formatCurrencyCall st₁ a₁ s₁).1 = (formatCurrencyCall st₂ a₂ s₂).1 ∧
    (formatCurrencyCall st₁ a₁ s₁).2 = st₁ := by
  subst ha; subst hs; exact ⟨rfl, rfl⟩

/-- Witness for C6 at amount 10 and symbol AAPL, across two different
component states. -/
theorem formatCurrency_pure_witness :
    (formatCurrencyCall ⟨[], [], DashTab.overview, true⟩ 10 "AAPL").1 =
      (formatCurrencyCall ⟨[], [], DashTab.charts, false⟩ 10 "AAPL").1 ∧
    (formatCurrencyCall ⟨[], [], DashTab.overview, true⟩ 10 "AAPL").2 =
      ⟨[], [], DashTab.overview, true⟩ :=
  formatCurrency_pure _ _ 10 10 "AAPL" "AAPL" rfl rfl

/-- C8: adding a stock preserves freedom from duplicates — the symbol is
appended only when absent and the list is unchanged when present — and
removing a stock removes exactly that symbol, keeping the remaining
symbols' relative order. -/
theorem selectedStocks_invariant (sel : List String) (s : String)
    (h : sel.Nodup) :
    (handleAddStock sel s).Nodup ∧
    (s ∈ sel → handleAddStock sel s = sel) ∧
    (s ∉ sel → handleAddStock sel s = sel ++ [s]) ∧
    s ∉ handleRemoveStock sel s ∧
    (handleRemoveStock sel s).Sublist sel := by
  refine ⟨?_, ?_, ?_, ?_, ?_⟩
  · unfold handleAddStock
    by_cases hc : s ∈ sel
    · simp [hc, h]
    · rw [if_neg (by simp [List.contains, hc])]
      exact List.Nodup.append h (List.nodup_singleton s)
        (by intro a ha hb; exact hc ((List.mem_singleton.mp hb) ▸ ha))
  · intro hs; simp [handleAddStock, hs]
  · intro hs; simp [handleAddStock, hs]
  · intro hmem
    have := (List.mem_filter.mp hmem).2
    simp at this
  · exact List.filter_sublist sel

/-- Witness for C8 on a concrete duplicate-free selection. -/
theorem selectedStocks_invariant_witness :
    (["RELIANCE.NS", "AAPL"] : List String).Nodup ∧
    (handleAddStock ["RELIANCE.NS", "AAPL"] "TCS.NS").Nodup ∧
    handleAddStock ["RELIANCE.NS", "AAPL"] "TCS.NS"
      = ["RELIANCE.NS", "AAPL"] ++ ["TCS.NS"] ∧
    "TCS.NS" ∉ handleRemoveStock ["RELIANCE.NS", "AAPL"] "TCS.NS" ∧
    (handleRemoveStock ["RELIANCE.NS", "AAPL"] "TCS.NS").Sublist
      ["RELIANCE.NS", "AAPL"] :=
  ⟨by decide,
   (selectedStocks_invariant ["RELIANCE.NS", "AAPL"] "TCS.NS" (by decide)).1,
   (selectedStocks_invariant ["RELIANCE.NS", "AAPL"] "TCS.NS" (by decide)).2.2.1
     (by decide),
   (selectedStocks_invariant ["RELIANCE.NS", "AAPL"] "TCS.NS" (by decide)).2.2.2.1,
   (selectedStocks_invariant ["RELIANCE.NS", "AAPL"] "TCS.NS" (by decide)).2.2.2.2⟩

/-- C10: the search dropdown shows at most 8 entries, and every entry shown
matches the search term case-insensitively in its name, symbol or sector. -/
theorem dropdown_bounded_and_matching (ps : Option PopularStocks)
    (term : String) :
    (dropdownEntries ps term).length ≤ 8 ∧
    ∀ s ∈ dropdownEntries ps term, stockMatches term s = true := by
  constructor
  · exact (List.length_take_le 8 _)
  · intro s hs
    have hs' : s ∈ filteredStocks ps term :=
      (List.take_sublist 8 _).subset hs
    match ps with
    | none => simp [filteredStocks] at hs'
    | some p => exact (List.mem_filter.mp hs').2

/-- Witness for C10 on a concrete loaded list and search term. -/
theorem dropdown_bounded_and_matching_witness :
    (dropdownEntries
        (some ⟨[⟨"TCS.NS", "Tata Consultancy Services", "Technology"⟩], []⟩)
        "tech").length ≤ 8 ∧
    stockMatches "tech" ⟨"TCS.NS", "Tata Consultancy Services", "Technology"⟩
      = true :=
  ⟨(dropdown_bounded_and_matching
      (some ⟨[⟨"TCS.NS", "Tata Consultancy Services", "Technology"⟩], []⟩)
      "tech").1,
   (dropdown_bounded_and_matching
      (some ⟨[⟨"TCS.NS", "Tata Consultancy Services", "Technology"⟩], []⟩)
      "tech").2 ⟨"TCS.NS", "Tata Consultancy Services", "Technology"⟩ (by decide)⟩

/-- The predicate a severity filter tab selects: everything for `all`,
otherwise equality of the severity string with the tab. -/
def matchesFilter : AlertFilter → PanelAlert → Bool
  | AlertFilter.all, _ => true
  | AlertFilter.high, a => a.severity == "high"
  | AlertFilter.medium, a => a.severity == "medium"
  | AlertFilter.low, a => a.severity == "low"

/-- For every tab, `filteredAlerts` is the filter by the tab's predicate. -/
theorem filteredAlerts_eq_filter (f : AlertFilter) (l : List PanelAlert) :
    filteredAlerts f l = l.filter (matchesFilter f) := by
  cases f
  · exact (List.filter_true l).symm
  · rfl
  · rfl
  · rfl

/-- When every severity is one of high, medium, low, the three severity
counts sum to the total count. -/
theorem alertCounts_sum (l : List PanelAlert)
    (h : ∀ a ∈ l, a.severity = "high" ∨ a.severity = "medium" ∨
      a.severity = "low") :
    (alertCounts l).high + (alertCounts l).medium + (alertCounts l).low
      = (alertCounts l).total := by
  induction l with
  | nil => simp [alertCounts]
  | cons a t ih =>
    have ht := ih (fun x hx => h x (List.mem_cons_of_mem a hx))
    have ha := h a (List.mem_cons_self a t)
    simp only [alertCounts, List.filter_cons, List.length_cons] at ht ⊢
    rcases ha with ha | ha | ha <;> rw [ha] <;> simp <;> omega

/-- C9: for every alert list, the alert panel's severity filter is an
exact partition — the `all` tab is the full list unchanged, a severity tab
is exactly the sublist of the alerts of that severity in their original
order (the filter of the list by that severity, with membership and
multiplicity determined by it), and, when every alert's severity is one of
high, medium, low, the three severity counts sum to the total. -/
theorem alertPanel_filter_partition (l : List PanelAlert) (f : AlertFilter) :
    filteredAlerts AlertFilter.all l = l ∧
    filteredAlerts f l = l.filter (matchesFilter f) ∧
    (∀ a, a ∈ filteredAlerts f l ↔ a ∈ l ∧ matchesFilter f a = true) ∧
    (filteredAlerts f l).Sublist l ∧
    ((∀ a ∈ l, a.severity = "high" ∨ a.severity = "medium" ∨
        a.severity = "low") →
      (alertCounts l).high + (alertCounts l).medium + (alertCounts l).low
        = (alertCounts l).total) := by
  refine ⟨rfl, filteredAlerts_eq_filter f l, ?_, ?_, alertCounts_sum l⟩
  · intro a
    rw [filteredAlerts_eq_filter]
    exact List.mem_filter
  · rw [filteredAlerts_eq_filter]
    exact List.filter_sublist l

/-- One concrete panel alert used by the C9 witness. -/
def wPanelAlert : PanelAlert :=
  { id := 1, symbol := "AAPL", alert_type := "volume", severity := "high",
    message := "Unusual volume", threshold_value := some 2,
    current_value := some (10/3), is_active := true,
    triggered_at := "2025-01-01" }

/-- Witness for C9 on a concrete one-alert list with the high tab, the
inner counts-sum hypothesis discharged there. -/
theorem alertPanel_filter_partition_witness :
    filteredAlerts AlertFilter.all [wPanelAlert] = [wPanelAlert] ∧
    filteredAlerts AlertFilter.high [wPanelAlert]
      = [wPanelAlert].filter (matchesFilter AlertFilter.high) ∧
    (wPanelAlert ∈ filteredAlerts AlertFilter.high [wPanelAlert] ↔
      wPanelAlert ∈ [wPanelAlert] ∧ matchesFilter AlertFilter.high wPanelAlert = true) ∧
    (filteredAlerts AlertFilter.high [wPanelAlert]).Sublist [wPanelAlert] ∧
    (alertCounts [wPanelAlert]).high + (alertCounts [wPanelAlert]).medium +
      (alertCounts [wPanelAlert]).low = (alertCounts [wPanelAlert]).total :=
  ⟨(alertPanel_filter_partition [wPanelAlert] AlertFilter.high).1,
   (alertPanel_filter_partition [wPanelAlert] AlertFilter.high).2.1,
   (alertPanel_filter_partition [wPanelAlert] AlertFilter.high).2.2.1 wPanelAlert,
   (alertPanel_filter_partition [wPanelAlert] AlertFilter.high).2.2.2.1,
   (alertPanel_filter_partition [wPanelAlert] AlertFilter.high).2.2.2.2
     (by intro a ha; simp at ha; subst ha; exact Or.inl rfl)⟩

/-- C5: the dashboard overview renders one card per selected symbol — a
symbol whose stock data is missing gets its per-symbol placeholder card
while every other symbol's card is rendered normally, so one symbol's
missing data never aborts or blanks the dashboard. -/
theorem dashboard_missing_symbol_isolated (sel : List String)
    (sd : List (String × StockData)) (sen : List (String × SentimentData))
    (i : Nat) (h : i < sel.length) :
    (renderOverview sel sd sen).length = sel.length ∧
    (renderOverview sel sd sen).get ⟨i, by simpa [renderOverview] using h⟩ =
      (match recLookup sd (sel.get ⟨i, h⟩) with
       | none => OverviewCard.placeholder (sel.get ⟨i, h⟩)
       | some d => OverviewCard.stockCard d (recLookup sen (sel.get ⟨i, h⟩))) := by
  constructor
  · simp [renderOverview]
  · simp [renderOverview, List.get_eq_getElem, List.getElem_map]

/-- A concrete stock record used by the C5 witness. -/
def wStockData : StockData :=
  { symbol := "AAPL", name := "Apple Inc.", current_price := 150,
    price_change := 2, price_change_pct := 3/2, volume := 1000,
    market_cap := "3T", historical_data := none }

/-- Witness for C5: with AAPL's data present and RELIANCE.NS's missing, the
overview still renders both cards and RELIANCE.NS gets the placeholder. -/
theorem dashboard_missing_symbol_isolated_witness :
    0 < (["RELIANCE.NS", "AAPL"] : List String).length ∧
    (renderOverview ["RELIANCE.NS", "AAPL"] [("AAPL", wStockData)] []).length = 2 ∧
    (renderOverview ["RELIANCE.NS", "AAPL"] [("AAPL", wStockData)] []).get
        ⟨0, by decide⟩ = OverviewCard.placeholder "RELIANCE.NS" :=
  ⟨by decide,
   (dashboard_missing_symbol_isolated ["RELIANCE.NS", "AAPL"]
     [("AAPL", wStockData)] [] 0 (by decide)).1,
   (dashboard_missing_symbol_isolated ["RELIANCE.NS", "AAPL"]
     [("AAPL", wStockData)] [] 0 (by decide)).2⟩

/-- The average gain of a change window is never negative. -/
theorem avgGain_nonneg (cs : List ℚ) : 0 ≤ avgGain cs := by
  apply div_nonneg _ (by norm_num)
  exact List.sum_nonneg (fun x hx => by
    obtain ⟨c, _, rfl⟩ := List.mem_map.mp hx
    exact le_max_right c 0)

/-- The average loss of a change window is never negative. -/
theorem avgLoss_nonneg (cs : List ℚ) : 0 ≤ avgLoss cs := by
  apply div_nonneg _ (by norm_num)
  exact List.sum_nonneg (fun x hx => by
    obtain ⟨c, _, rfl⟩ := List.mem_map.mp hx
    exact le_max_right (-c) 0)

/-- The RSI formula stays within [0, 100] on every change window. -/
theorem rsiValue_bounds (cs : List ℚ) :
    0 ≤ rsiValue cs ∧ rsiValue cs ≤ 100 := by
  have hg := avgGain_nonneg cs
  have hl := avgLoss_nonneg cs
  unfold rsiValue
  split
  · split <;> norm_num
  · rename_i hne
    have hlpos : 0 < avgLoss cs := lt_of_le_of_ne hl (Ne.symm hne)
    have hrs : 0 ≤ avgGain cs / avgLoss cs := div_nonneg hg hlpos.le
    have hdenpos : (0:ℚ) < 1 + avgGain cs / avgLoss cs := by linarith
    have hdiv_pos : 0 < 100 / (1 + avgGain cs / avgLoss cs) := by positivity
    have hdiv_le : 100 / (1 + avgGain cs / avgLoss cs) ≤ 100 := by
      rw [div_le_iff₀ hdenpos]; linarith
    constructor <;> linarith

/-- C4: whenever the Indicator Calculator's `compute` reports an RSI (the
series is long enough to be non-degenerate for the 14-period window), that
RSI lies in the closed interval [0, 100]. -/
theorem compute_rsi_in_range (series : List PricePoint) (r : ℚ)
    (h : (compute series).rsi = some r) : 0 ≤ r ∧ r ≤ 100 := by
  have h' : rsi14 (series.map (fun p => p.close)) = some r := h
  unfold rsi14 at h'
  split at h'
  · cases h'
  · cases Option.some.inj h'
    exact rsiValue_bounds _

/-- A 15-point rising price series used by the C4 witness. -/
def wSeries : List PricePoint :=
  [⟨0, 1, 100⟩, ⟨1, 2, 100⟩, ⟨2, 3, 100⟩, ⟨3, 4, 100⟩, ⟨4, 5, 100⟩,
   ⟨5, 6, 100⟩, ⟨6, 7, 100⟩, ⟨7, 8, 100⟩, ⟨8, 9, 100⟩, ⟨9, 10, 100⟩,
   ⟨10, 11, 100⟩, ⟨11, 12, 100⟩, ⟨12, 13, 100⟩, ⟨13, 14, 100⟩, ⟨14, 15, 100⟩]

/-- Witness for C4 on the concrete 15-point series (all gains, RSI 100). -/
theorem compute_rsi_in_range_witness :
    (compute wSeries).rsi = some 100 ∧ (0:ℚ) ≤ 100 ∧ (100:ℚ) ≤ 100 :=
  have h : (compute wSeries).rsi = some 100 := by
    show rsi14 (wSeries.map (fun p => p.close)) = some 100
    norm_num [wSeries, rsi14, rsiValue, avgGain, avgLoss, changes, max_def]
  ⟨h, compute_rsi_in_range wSeries 100 h⟩

/-- Every alert in the emitted output is active. -/
theorem mem_emitActive_isActive (st : EvalState) (a : Alert)
    (ha : a ∈ emitActive st) : a.isActive = true := by
  have h : a ∈ st.alerts.filter (fun a => a.isActive) :=
    (List.perm_insertionSort emitOrder _).subset ha
  simpa using (List.mem_filter.mp h).2

/-- C2: the evaluator's emitted list contains only active alerts and is
sorted by severity (high, medium, low) then by `triggeredAt` descending;
the alert panel's `all` tab displays that list unchanged, and under every
tab each displayed alert is drawn from it in order, so every alert the
panel shows is active. -/
theorem emitted_alerts_active_sorted (st : EvalState) (f : AlertFilter) :
    (∀ a ∈ emitActive st, a.isActive = true) ∧
    (emitActive st).Sorted emitOrder ∧
    filteredAlerts AlertFilter.all ((emitActive st).map toPanelAlert)
      = (emitActive st).map toPanelAlert ∧
    (filteredAlerts f ((emitActive st).map toPanelAlert)).Sublist
      ((emitActive st).map toPanelAlert) ∧
    ∀ p ∈ filteredAlerts f ((emitActive st).map toPanelAlert),
      p.is_active = true := by
  refine ⟨mem_emitActive_isActive st, List.sorted_insertionSort emitOrder _, rfl,
    ?_, ?_⟩
  · rw [filteredAlerts_eq_filter]
    exact List.filter_sublist _
  · intro p hp
    have hp' : p ∈ (emitActive st).map toPanelAlert := by
      rw [filteredAlerts_eq_filter] at hp
      exact (List.mem_filter.mp hp).1
    obtain ⟨a, ha, rfl⟩ := List.mem_map.mp hp'
    simpa [toPanelAlert] using mem_emitActive_isActive st a ha

/-- A concrete active high-severity alert for the C2 witness. -/
def wAlertHigh : Alert :=
  ⟨1, "AAPL", AlertKind.volume, Severity.high, "Unusual volume", none, none,
    true, 10⟩

/-- A concrete active low-severity alert for the C2 witness. -/
def wAlertLow : Alert :=
  ⟨2, "AAPL", AlertKind.trend, Severity.low, "Trend divergence", none, none,
    true, 5⟩

/-- A concrete retired alert for the C2 witness. -/
def wAlertRetired : Alert :=
  ⟨3, "TCS.NS", AlertKind.sentiment, Severity.medium, "Negative sentiment",
    none, none, false, 4⟩

/-- A concrete evaluator state for the C2 witness. -/
def wEvalState : EvalState :=
  ⟨[wAlertLow, wAlertRetired, wAlertHigh], 4⟩

/-- Witness for C2 on a concrete state holding two active alerts and one
retired alert, under the high tab. -/
theorem emitted_alerts_active_sorted_witness :
    filteredAlerts AlertFilter.all ((emitActive wEvalState).map toPanelAlert)
      = (emitActive wEvalState).map toPanelAlert ∧
    (toPanelAlert wAlertHigh).is_active = true :=
  ⟨(emitted_alerts_active_sorted wEvalState AlertFilter.high).2.2.1,
   (emitted_alerts_active_sorted wEvalState AlertFilter.high).2.2.2.2
     (toPanelAlert wAlertHigh) (by decide)⟩

/-! ### Lemmas about one evaluation cycle -/

/-- Applying `updateAlert` never changes whether a record is the active
(s', k') alert. -/
theorem activePred_updateAlert (now : Nat) (sym : String) (c : Candidate)
    (s' : String) (k' : AlertKind) (a : Alert) :
    activePred s' k' (updateAlert now sym c a) = activePred s' k' a := by
  unfold updateAlert
  split <;> simp [activePred]

/-- Applying `updateAlert` never changes a record's (symbol, kind) pair. -/
theorem symKindPred_updateAlert (now : Nat) (sym : String) (c : Candidate)
    (s' : String) (k' : AlertKind) (a : Alert) :
    symKindPred s' k' (updateAlert now sym c a) = symKindPred s' k' a := by
  unfold updateAlert
  split <;> simp [symKindPred]

/-- Applying `retireAlert` never changes a record's (symbol, kind) pair. -/
theorem symKindPred_retireAlert (sym : String) (cands : List Candidate)
    (s' : String) (k' : AlertKind) (a : Alert) :
    symKindPred s' k' (retireAlert sym cands a) = symKindPred s' k' a := by
  unfold retireAlert
  split <;> simp [symKindPred]

/-- A record that is the active (s', k') alert after retirement already was
before. -/
theorem activePred_retireAlert_imp (sym : String) (cands : List Candidate)
    (s' : String) (k' : AlertKind) (a : Alert)
    (h : activePred s' k' (retireAlert sym cands a) = true) :
    activePred s' k' a = true := by
  unfold retireAlert at h
  split at h
  · simp [activePred] at h
  · exact h

/-- When some candidate of kind k fired, `retireAlert` leaves the active
(sym, k) status of every record unchanged. -/
theorem activePred_retireAlert_of_fired (sym : String) (cands : List Candidate)
    (k : AlertKind) (a : Alert)
    (hf : cands.any (fun c => c.kind == k) = true) :
    activePred sym k (retireAlert sym cands a) = activePred sym k a := by
  unfold retireAlert
  split
  · rename_i hcond
    cases hak : (a.kind == k) with
    | false => simp [activePred, hak]
    | true =>
      have hk : a.kind = k := by simpa using hak
      rw [← hk] at hf
      simp [hf] at hcond
  · rfl

/-- A map whose function preserves the predicate pointwise preserves the
count. -/
theorem countP_map_eq_of_pred_eq {α : Type} (g : α → α) (p : α → Bool)
    (l : List α) (h : ∀ a, p (g a) = p a) :
    (l.map g).countP p = l.countP p := by
  rw [List.countP_map]
  exact List.countP_congr (fun a _ => by simp [Function.comp, h a])

/-- A map whose function can only lose the predicate cannot increase the
count. -/
theorem countP_map_le_of_pred_imp {α : Type} (g : α → α) (p : α → Bool)
    (l : List α) (h : ∀ a, p (g a) = true → p a = true) :
    (l.map g).countP p ≤ l.countP p := by
  rw [List.countP_map]
  exact List.countP_mono_left (fun a _ hpa => h a hpa)

/-- An existing active alert survives one candidate application. -/
theorem hasActive_applyCandidate (now : Nat) (sym : String) (st : EvalState)
    (c : Candidate) (s' : String) (k' : AlertKind)
    (h : hasActive st s' k' = true) :
    hasActive (applyCandidate now sym st c) s' k' = true := by
  obtain ⟨a, ha, hpa⟩ := List.any_eq_true.mp h
  unfold applyCandidate
  split
  · exact List.any_eq_true.mpr ⟨updateAlert now sym c a,
      List.mem_map_of_mem _ ha,
      by rw [activePred_updateAlert]; exact hpa⟩
  · exact List.any_eq_true.mpr ⟨a, List.mem_append_left _ ha, hpa⟩

/-- An existing active alert survives the whole candidate fold. -/
theorem hasActive_foldl (now : Nat) (sym : String) (cands : List Candidate)
    (st : EvalState) (s' : String) (k' : AlertKind)
    (h : hasActive st s' k' = true) :
    hasActive (cands.foldl (applyCandidate now sym) st) s' k' = true := by
  induction cands generalizing st with
  | nil => exact h
  | cons c cs ih =>
    exact ih _ (hasActive_applyCandidate now sym st c s' k' h)

/-- One candidate application keeps the at-most-one-active invariant. -/
theorem atMostOne_applyCandidate (now : Nat) (sym : String) (st : EvalState)
    (c : Candidate) (hinv : AtMostOneActive st) :
    AtMostOneActive (applyCandidate now sym st c) := by
  intro s' k'
  unfold applyCandidate
  split
  · show (st.alerts.map (updateAlert now sym c)).countP (activePred s' k') ≤ 1
    rw [countP_map_eq_of_pred_eq _ _ _
      (activePred_updateAlert now sym c s' k')]
    exact hinv s' k'
  · rename_i hno
    show (st.alerts ++ [newAlert now sym st c]).countP (activePred s' k') ≤ 1
    rw [List.countP_append, List.countP_singleton]
    by_cases hmatch : activePred s' k' (newAlert now sym st c) = true
    · rw [if_pos hmatch]
      have hsym : sym = s' := by
        have := hmatch
        unfold activePred newAlert at this
        simp at this
        exact this.1
      have hkind : c.kind = k' := by
        have := hmatch
        unfold activePred newAlert at this
        simp at this
        exact this.2
      have h0 : st.alerts.countP (activePred s' k') = 0 := by
        rw [List.countP_eq_zero]
        intro a ha hpa
        have : hasActive st sym c.kind = true :=
          List.any_eq_true.mpr ⟨a, ha, by rw [hsym, hkind]; exact hpa⟩
        simp [this] at hno
      omega
    · rw [if_neg hmatch]
      have := hinv s' k'
      omega

/-- The candidate fold keeps the at-most-one-active invariant. -/
theorem atMostOne_foldl (now : Nat) (sym : String) (cands : List Candidate)
    (st : EvalState) (hinv : AtMostOneActive st) :
    AtMostOneActive (cands.foldl (applyCandidate now sym) st) := by
  induction cands generalizing st with
  | nil => exact hinv
  | cons c cs ih =>
    exact ih _ (atMostOne_applyCandidate now sym st c hinv)

/-- Retirement keeps the at-most-one-active invariant. -/
theorem atMostOne_retireMissing (sym : String) (cands : List Candidate)
    (st : EvalState) (hinv : AtMostOneActive st) :
    AtMostOneActive (retireMissing sym cands st) := by
  intro s' k'
  exact le_trans
    (countP_map_le_of_pred_imp _ _ _
      (activePred_retireAlert_imp sym cands s' k'))
    (hinv s' k')

/-- When an active (sym, k') alert exists, one candidate application
creates no record and deletes none: every (sym, k') record count is
unchanged. -/
theorem recordCount_applyCandidate (now : Nat) (sym : String) (st : EvalState)
    (c : Candidate) (k' : AlertKind)
    (hact : hasActive st sym k' = true) :
    recordCount (applyCandidate now sym st c) sym k' = recordCount st sym k' := by
  unfold applyCandidate recordCount
  split
  · show (st.alerts.map (updateAlert now sym c)).countP (symKindPred sym k')
      = st.alerts.countP (symKindPred sym k')
    exact countP_map_eq_of_pred_eq _ _ _
      (symKindPred_updateAlert now sym c sym k')
  · rename_i hno
    show (st.alerts ++ [newAlert now sym st c]).countP (symKindPred sym k')
      = st.alerts.countP (symKindPred sym k')
    rw [List.countP_append, List.countP_singleton]
    have hkind : (c.kind == k') = false := by
      cases hkeq : (c.kind == k') with
      | false => rfl
      | true =>
        have : c.kind = k' := by simpa using hkeq
        rw [this] at hno
        simp [hact] at hno
    have : symKindPred sym k' (newAlert now sym st c) = false := by
      unfold symKindPred newAlert
      simp [hkind]
    rw [if_neg (by simp [this])]
    omega

/-- When an active (sym, k') alert exists, the whole candidate fold keeps
every (sym, k') record count unchanged. -/
theorem recordCount_foldl (now : Nat) (sym : String) (cands : List Candidate)
    (st : EvalState) (k' : AlertKind)
    (hact : hasActive st sym k' = true) :
    recordCount (cands.foldl (applyCandidate now sym) st) sym k'
      = recordCount st sym k' := by
  induction cands generalizing st with
  | nil => rfl
  | cons c cs ih =>
    rw [List.foldl_cons,
      ih _ (hasActive_applyCandidate now sym st c sym k' hact),
      recordCount_applyCandidate now sym st c k' hact]

/-- Retirement touches no record's (symbol, kind) pair, so record counts
are unchanged. -/
theorem recordCount_retireMissing (sym : String) (cands : List Candidate)
    (st : EvalState) (s' : String) (k' : AlertKind) :
    recordCount (retireMissing sym cands st) s' k' = recordCount st s' k' :=
  countP_map_eq_of_pred_eq _ _ _ (symKindPred_retireAlert sym cands s' k')

/-- When an active (sym, k') alert exists, one candidate application keeps
the number of active (sym, k') alerts unchanged. -/
theorem countP_active_applyCandidate (now : Nat) (sym : String)
    (st : EvalState) (c : Candidate) (k' : AlertKind)
    (hact : hasActive st sym k' = true) :
    (applyCandidate now sym st c).alerts.countP (activePred sym k')
      = st.alerts.countP (activePred sym k') := by
  unfold applyCandidate
  split
  · show (st.alerts.map (updateAlert now sym c)).countP (activePred sym k')
      = st.alerts.countP (activePred sym k')
    exact countP_map_eq_of_pred_eq _ _ _
      (activePred_updateAlert now sym c sym k')
  · rename_i hno
    show (st.alerts ++ [newAlert now sym st c]).countP (activePred sym k')
      = st.alerts.countP (activePred sym k')
    rw [List.countP_append, List.countP_singleton]
    have hkind : (c.kind == k') = false := by
      cases hkeq : (c.kind == k') with
      | false => rfl
      | true =>
        have : c.kind = k' := by simpa using hkeq
        rw [this] at hno
        simp [hact] at hno
    have : activePred sym k' (newAlert now sym st c) = false := by
      unfold activePred newAlert
      simp [hkind]
    rw [if_neg (by simp [this])]
    omega

/-- When an active (sym, k') alert exists, the whole candidate fold keeps
the number of active (sym, k') alerts unchanged. -/
theorem countP_active_foldl (now : Nat) (sym : String) (cands : List Candidate)
    (st : EvalState) (k' : AlertKind)
    (hact : hasActive st sym k' = true) :
    (cands.foldl (applyCandidate now sym) st).alerts.countP (activePred sym k')
      = st.alerts.countP (activePred sym k') := by
  induction cands generalizing st with
  | nil => rfl
  | cons c cs ih =>
    rw [List.foldl_cons,
      ih _ (hasActive_applyCandidate now sym st c sym k' hact),
      countP_active_applyCandidate now sym st c k' hact]

/-- When some candidate of kind k fired, retirement keeps the number of
active (sym, k) alerts unchanged. -/
theorem countP_active_retireMissing (sym : String) (cands : List Candidate)
    (st : EvalState) (k : AlertKind)
    (hf : cands.any (fun c => c.kind == k) = true) :
    (retireMissing sym cands st).alerts.countP (activePred sym k)
      = st.alerts.countP (activePred sym k) :=
  countP_map_eq_of_pred_eq _ _ _
    (fun a => activePred_retireAlert_of_fired sym cands k a hf)

/-- Every active (sym, k) alert of the state carries the candidate's
currentValue and the cycle timestamp. -/
def FieldsSet (now : Nat) (sym : String) (k : AlertKind) (c : Candidate)
    (st : EvalState) : Prop :=
  ∀ a ∈ st.alerts, activePred sym k a = true →
    a.currentValue = c.currentValue ∧ a.triggeredAt = now

/-- Applying a candidate to a state already holding its active alert
updates that alert's currentValue and triggeredAt in place. -/
theorem fieldsSet_applyCandidate_self (now : Nat) (sym : String)
    (st : EvalState) (c : Candidate)
    (hact : hasActive st sym c.kind = true) :
    FieldsSet now sym c.kind c (applyCandidate now sym st c) := by
  intro a ha hpa
  unfold applyCandidate at ha
  rw [if_pos hact] at ha
  obtain ⟨b, hb, rfl⟩ := List.mem_map.mp ha
  rw [activePred_updateAlert] at hpa
  unfold updateAlert
  rw [if_pos hpa]
  exact ⟨rfl, rfl⟩

/-- Applying a candidate of a different kind leaves the updated fields of
the active (sym, k) alert intact. -/
theorem fieldsSet_applyCandidate_other (now : Nat) (sym : String)
    (st : EvalState) (c' : Candidate) (k : AlertKind) (c : Candidate)
    (hk : c'.kind ≠ k) (hfs : FieldsSet now sym k c st) :
    FieldsSet now sym k c (applyCandidate now sym st c') := by
  intro a ha hpa
  unfold applyCandidate at ha
  split at ha
  · obtain ⟨b, hb, rfl⟩ := List.mem_map.mp ha
    rw [activePred_updateAlert] at hpa
    have hbk : b.kind = k := by
      have hpa' := hpa
      unfold activePred at hpa'
      simp only [Bool.and_eq_true, beq_iff_eq] at hpa'
      exact hpa'.2
    have hcond : activePred sym c'.kind b = false := by
      unfold activePred
      have : (b.kind == c'.kind) = false := by
        cases hbe : (b.kind == c'.kind) with
        | false => rfl
        | true =>
          have : b.kind = c'.kind := by simpa using hbe
          exact absurd (this ▸ hbk).symm (Ne.symm hk)
      simp [this]
    unfold updateAlert
    rw [if_neg (by simp [hcond])]
    exact hfs b hb hpa
  · rcases List.mem_append.mp ha with ha' | ha'
    · exact hfs a ha' hpa
    · exfalso
      have hnew : a = newAlert now sym st c' := by simpa using ha'
      subst hnew
      unfold activePred newAlert at hpa
      simp at hpa
      exact hk hpa

/-- Retirement leaves every surviving active (sym, k) alert's updated
fields intact. -/
theorem fieldsSet_retireMissing (now : Nat) (sym : String)
    (cands : List Candidate) (st : EvalState) (k : AlertKind) (c : Candidate)
    (hfs : FieldsSet now sym k c st) :
    FieldsSet now sym k c (retireMissing sym cands st) := by
  intro a ha hpa
  obtain ⟨b, hb, rfl⟩ := List.mem_map.mp ha
  obtain ⟨hcv, hta⟩ := hfs b hb
    (activePred_retireAlert_imp sym cands sym k b hpa)
  unfold retireAlert
  split
  · exact ⟨hcv, hta⟩
  · exact ⟨hcv, hta⟩

/-- Folding candidates none of which has kind k leaves the updated fields
of the active (sym, k) alert intact. -/
theorem fieldsSet_foldl (now : Nat) (sym : String) (st : EvalState)
    (k : AlertKind) (c : Candidate) (l : List Candidate)
    (hl : ∀ c' ∈ l, c'.kind ≠ k) (hfs : FieldsSet now sym k c st) :
    FieldsSet now sym k c (l.foldl (applyCandidate now sym) st) := by
  induction l generalizing st with
  | nil => exact hfs
  | cons c' cs ih =>
    rw [List.foldl_cons]
    exact ih _ (fun x hx => hl x (List.mem_cons_of_mem c' hx))
      (fieldsSet_applyCandidate_other now sym st c' k c
        (hl c' (List.mem_cons_self c' cs)) hfs)

/-- C1: an evaluation cycle preserves the at-most-one-active-alert
invariant for every (symbol, kind) pair, and when a rule whose kind already
has an active alert fires again, the cycle creates no new record for that
(symbol, kind): exactly one active alert remains and it carries the
candidate's currentValue and the new cycle's triggeredAt. -/
theorem alertEvaluator_dedup (now : Nat) (sym : String) (st : EvalState)
    (cands : List Candidate) (hinv : AtMostOneActive st)
    (hnd : (cands.map (fun c => c.kind)).Nodup) :
    AtMostOneActive (evalCycle now sym cands st) ∧
    ∀ c ∈ cands, hasActive st sym c.kind = true →
      recordCount (evalCycle now sym cands st) sym c.kind
        = recordCount st sym c.kind ∧
      (evalCycle now sym cands st).alerts.countP (activePred sym c.kind) = 1 ∧
      ∀ a ∈ (evalCycle now sym cands st).alerts,
        activePred sym c.kind a = true →
          a.currentValue = c.currentValue ∧ a.triggeredAt = now := by
  constructor
  · exact atMostOne_retireMissing sym cands _
      (atMostOne_foldl now sym cands st hinv)
  · intro c hc hact
    have hfired : cands.any (fun x => x.kind == c.kind) = true :=
      List.any_eq_true.mpr ⟨c, hc, by simp⟩
    refine ⟨?_, ?_, ?_⟩
    · unfold evalCycle
      rw [recordCount_retireMissing,
        recordCount_foldl now sym cands st c.kind hact]
    · unfold evalCycle
      rw [countP_active_retireMissing sym cands _ c.kind hfired,
        countP_active_foldl now sym cands st c.kind hact]
      have hle := hinv sym c.kind
      have hge : 0 < st.alerts.countP (activePred sym c.kind) := by
        obtain ⟨a, ha, hpa⟩ := List.any_eq_true.mp hact
        exact List.countP_pos_iff.mpr ⟨a, ha, hpa⟩
      omega
    · obtain ⟨l₁, l₂, hsplit⟩ := List.append_of_mem hc
      subst hsplit
      have h₁₂ := hnd
      rw [List.map_append, List.map_cons] at h₁₂
      have hl₂nd := (List.nodup_append.mp h₁₂).2.1
      have hk₂ : ∀ x ∈ l₂, x.kind ≠ c.kind := by
        intro x hx he
        have hmem : c.kind ∈ l₂.map (fun c => c.kind) :=
          he ▸ List.mem_map_of_mem _ hx
        exact (List.nodup_cons.mp hl₂nd).1 hmem
      unfold evalCycle
      rw [List.foldl_append, List.foldl_cons]
      have hact₁ : hasActive (l₁.foldl (applyCandidate now sym) st) sym
          c.kind = true :=
        hasActive_foldl now sym l₁ st sym c.kind hact
      exact fieldsSet_retireMissing now sym _ _ c.kind c
        (fieldsSet_foldl now sym _ c.kind c l₂ hk₂
          (fieldsSet_applyCandidate_self now sym _ c hact₁))

/-- The active alert of the C1 witness state. -/
def wDedupAlert : Alert :=
  ⟨1, "AAPL", AlertKind.sentiment, Severity.medium, "Negative sentiment",
    none, none, true, 1⟩

/-- The C1 witness evaluator state. -/
def wDedupState : EvalState := ⟨[wDedupAlert], 2⟩

/-- The re-firing candidate of the C1 witness. -/
def wDedupCand : Candidate :=
  ⟨AlertKind.sentiment, Severity.high, "Negative sentiment", none, none⟩

/-- The in-place-updated alert after the C1 witness cycle. -/
def wDedupUpdated : Alert :=
  ⟨1, "AAPL", AlertKind.sentiment, Severity.high, "Negative sentiment",
    none, none, true, 5⟩

/-- The C1 witness state satisfies the at-most-one-active invariant. -/
theorem wDedupState_atMostOne : AtMostOneActive wDedupState := by
  intro s k
  rw [show wDedupState.alerts = [wDedupAlert] from rfl, List.countP_singleton]
  split <;> omega

/-- Witness for C1: a state with one active sentiment alert for AAPL whose
rule fires again in the next cycle — the record is updated in place, no
second record appears. -/
theorem alertEvaluator_dedup_witness :
    hasActive wDedupState "AAPL" AlertKind.sentiment = true ∧
    recordCount (evalCycle 5 "AAPL" [wDedupCand] wDedupState) "AAPL"
      AlertKind.sentiment = recordCount wDedupState "AAPL" AlertKind.sentiment ∧
    (evalCycle 5 "AAPL" [wDedupCand] wDedupState).alerts.countP
      (activePred "AAPL" AlertKind.sentiment) = 1 ∧
    wDedupUpdated ∈ (evalCycle 5 "AAPL" [wDedupCand] wDedupState).alerts ∧
    (wDedupUpdated.currentValue = wDedupCand.currentValue ∧
      wDedupUpdated.triggeredAt = 5) :=
  ⟨by decide,
   ((alertEvaluator_dedup 5 "AAPL" wDedupState [wDedupCand]
       wDedupState_atMostOne (by decide)).2 wDedupCand (by decide)
       (by decide)).1,
   ((alertEvaluator_dedup 5 "AAPL" wDedupState [wDedupCand]
       wDedupState_atMostOne (by decide)).2 wDedupCand (by decide)
       (by decide)).2.1,
   by decide,
   ((alertEvaluator_dedup 5 "AAPL" wDedupState [wDedupCand]
       wDedupState_atMostOne (by decide)).2 wDedupCand (by decide)
       (by decide)).2.2 wDedupUpdated (by decide) (by decide)⟩

end StockSensei
